import Mathlib

/-!
Verification of the reference-context and controlled-vocabulary subsystems of
the mzident_writer package, shallowly embedded from
`src/mzident_writer/components.py`, `src/mzident_writer/controlled_vocabulary.py`
and `src/mzident_writer/writer.py`.

Python dictionaries are modelled as association lists threaded explicitly;
exceptions are modelled with `Except`.
-/

set_option maxRecDepth 4000

deriving instance DecidableEq for Except

namespace Mzid

/-- A Python id value: entity ids may be numeric or strings
(`TagBase.__init__` in components.py accepts both). -/
inductive PyId where
  | int (n : Int)
  | str (s : String)
deriving DecidableEq, Repr

/-- Interpolating a value with the `%d` directive: succeeds on numbers and
renders them in decimal; raises `TypeError` on strings. -/
def pyFormatD : PyId → Option String
  | .int n => some (toString n)
  | .str _ => none

/-! Python string primitives, implemented over character lists (the byte
strings of the Python 2 source are ASCII throughout). -/

/-- Python `\s`, and the characters removed by `str.strip()`. -/
def isSpaceChar (c : Char) : Bool :=
  c = ' ' || c = '\t' || c = '\n' || c = '\r' || c = '\x0b' || c = '\x0c'

/-- `str.upper()`. -/
def strToUpper (s : String) : String :=
  String.mk (s.data.map Char.toUpper)

/-- `str.lower()`. -/
def strToLower (s : String) : String :=
  String.mk (s.data.map Char.toLower)

/-- `str.strip()`. -/
def strTrim (s : String) : String :=
  String.mk (((s.data.dropWhile isSpaceChar).reverse.dropWhile isSpaceChar).reverse)

/-- `str.split(sep)` on a one-character separator. -/
def splitOnChar (sep : Char) : List Char → List (List Char)
  | [] => [[]]
  | c :: rest =>
    let r := splitOnChar sep rest
    if c = sep then [] :: r
    else
      match r with
      | [] => [[c]]
      | h :: t => (c :: h) :: t

def strSplitOn (sep : Char) (s : String) : List String :=
  (splitOnChar sep s.data).map String.mk

def intercalateChar (sep : Char) : List (List Char) → List Char
  | [] => []
  | [x] => x
  | x :: y :: t => x ++ sep :: intercalateChar sep (y :: t)

/-- `sep.join(parts)` on a one-character separator. -/
def strIntercalate (sep : Char) (parts : List String) : String :=
  String.mk (intercalateChar sep (parts.map String.data))

/-- `str.endswith(suffix)`. -/
def strEndsWith (s suffix : String) : Bool :=
  suffix.data.isSuffixOf s.data

/-- components.py `id_maker` applied to a numeric id:
`"%s_%d" % (type_name.upper(), id_number)`. -/
def id_makerInt (type_name : String) (id_number : Int) : String :=
  strToUpper type_name ++ "_" ++ toString id_number

/-- components.py `id_maker`; the `%d` directive raises on a string id. -/
def id_maker (type_name : String) : PyId → Option String
  | .int n => some (id_makerInt type_name n)
  | .str _ => none

/-- Association-list lookup, modelling Python dict access on hashable keys. -/
def alistFind {α β : Type} [DecidableEq α] : List (α × β) → α → Option β
  | [], _ => none
  | (k, v) :: rest, key => if k = key then some v else alistFind rest key

/-- Association-list assignment, modelling Python dict item assignment:
the original key object and its position are kept on overwrite, new keys are
appended. -/
def alistSet {α β : Type} [DecidableEq α] : List (α × β) → α → β → List (α × β)
  | [], key, val => [(key, val)]
  | (k, v) :: rest, key, val =>
    if k = key then (k, val) :: rest else (k, v) :: alistSet rest key val

def exceptIsOk {ε α : Type} : Except ε α → Bool
  | .ok _ => true
  | .error _ => false

theorem alistFind_set_self {α β : Type} [DecidableEq α] (l : List (α × β)) (k : α) (v : β) :
    alistFind (alistSet l k v) k = some v := by
  induction l with
  | nil => simp [alistFind, alistSet]
  | cons hd t ih =>
    obtain ⟨k', v'⟩ := hd
    by_cases hk : k' = k
    · simp [alistSet, alistFind, hk]
    · simp [alistSet, alistFind, hk, ih]

theorem alistFind_set_ne {α β : Type} [DecidableEq α] (l : List (α × β)) (k k' : α) (v : β)
    (h : k' ≠ k) : alistFind (alistSet l k v) k' = alistFind l k' := by
  induction l with
  | nil => simp [alistFind, alistSet, Ne.symm h]
  | cons hd t ih =>
    obtain ⟨ka, va⟩ := hd
    by_cases hk : ka = k
    · subst hk
      simp [alistSet, alistFind, Ne.symm h]
    · simp only [alistSet, if_neg hk, alistFind]
      by_cases hk' : ka = k'
      · simp [hk']
      · simp [hk', ih]

theorem alistFind_map {α β γ : Type} [DecidableEq α] (l : List (α × β)) (f : β → γ) (k : α) :
    alistFind (l.map fun kv => (kv.1, f kv.2)) k = (alistFind l k).map f := by
  induction l with
  | nil => simp [alistFind]
  | cons hd t ih =>
    obtain ⟨ka, va⟩ := hd
    by_cases hk : ka = k
    · simp [alistFind, hk]
    · simp [alistFind, hk, ih]

/-! ## OBO parser (controlled_vocabulary.py) -/

/-- An `is_a` target: accession with optional trailing comment. -/
structure Reference where
  accession : String
  comment : Option String
deriving DecidableEq, Repr

/-- `Reference.fromstring`: split on `"!"` and strip both parts; any shape not
unpacking into exactly two parts keeps the whole (unstripped) string as the
accession. -/
def Reference.fromstring (s : String) : Reference :=
  match (strSplitOn '!' s).map strTrim with
  | [a, c] => ⟨a, some c⟩
  | _ => ⟨s, none⟩

structure Relationship where
  predicate : String
  accession : String
  comment : Option String
deriving DecidableEq, Repr

def matchSpace1 : List Char → Option (List Char)
  | c :: rest => if isSpaceChar c then some rest else none
  | [] => none

/-- Tail of the relationship pattern: `!` then one `\s` then the comment group
`.*` (greedy, stopping at a newline). -/
def matchBangComment : List Char → Option String
  | '!' :: rest =>
    (matchSpace1 rest).map fun r => String.mk (r.takeWhile fun c => !(c = '\n'))
  | _ => none

/-- Greedy-with-backtracking driver for a `\S+` group: try the match lengths
n, n-1, ..., 1 in order. -/
def tryLens {α : Type} (f : Nat → Option α) : Nat → Option α
  | 0 => none
  | n + 1 =>
    match f (n + 1) with
    | some a => some a
    | none => tryLens f n

/-- The `(?P<accession>\S+)\s(?:!\s(?P<comment>.*))` part of the relationship
pattern, anchored at `cs`. -/
def matchAccession (cs : List Char) : Option (String × String) :=
  let run := cs.takeWhile fun c => !isSpaceChar c
  let rest := cs.drop run.length
  tryLens
    (fun k =>
      match matchSpace1 (run.drop k ++ rest) with
      | some r => (matchBangComment r).map fun cm => (String.mk (run.take k), cm)
      | none => none)
    run.length

/-- The full pattern `(?P<predicate>\S+):?\s(?P<accession>\S+)\s(?:!\s(?P<comment>.*))`
anchored at `cs`; the optional colon is tried greedily. -/
def matchPredAt (cs : List Char) : Option (String × String × String) :=
  let run := cs.takeWhile fun c => !isSpaceChar c
  let rest := cs.drop run.length
  tryLens
    (fun k =>
      let pred := String.mk (run.take k)
      let after := run.drop k ++ rest
      let withColon :=
        match after with
        | ':' :: r2 =>
          match matchSpace1 r2 with
          | some r3 => (matchAccession r3).map fun (p : String × String) => (pred, p.1, p.2)
          | none => none
        | _ => none
      match withColon with
      | some x => some x
      | none =>
        match matchSpace1 after with
        | some r3 => (matchAccession r3).map fun (p : String × String) => (pred, p.1, p.2)
        | none => none)
    run.length

/-- `re.search`: try each start position left to right. -/
def searchRel : List Char → Option (String × String × String)
  | [] => none
  | c :: rest =>
    match matchPredAt (c :: rest) with
    | some x => some x
    | none => searchRel rest

/-- `Relationship.fromstring`: the comment group of the pattern is not
optional, so a line without a `! comment` tail makes `re.search` return
`None` and the `groupdict` call raise. -/
def Relationship.fromstring (s : String) : Except String Relationship :=
  match searchRel s.data with
  | some (p, a, cm) => .ok ⟨p, a, some cm⟩
  | none => .error "AttributeError: groupdict of None"

/-- A value stored under a key of a packed term record. -/
inductive OboValue where
  | str (s : String)
  | strs (ss : List String)
  | ref (r : Reference)
  | refs (rs : List Reference)
  | rel (r : Relationship)
deriving DecidableEq, Repr

def OboValue.isRel : OboValue → Bool
  | .rel _ => true
  | _ => false

/-- A packed term record: Python dict keyed by field-name strings. -/
abbrev Entity := List (String × OboValue)

/-- A key of the parser's `terms` dict.  Term ids are normally strings, but a
relationship whose predicate is `id` can put a `Relationship` object there;
both are hashable, with hash and equality delegated to the accession. -/
inductive TermKey where
  | str (s : String)
  | ref (r : Reference)
  | rel (r : Relationship)
deriving DecidableEq, Repr

/-- The value that Python hashing and equality of a terms-dict key reduce to. -/
def TermKey.acc : TermKey → String
  | .str s => s
  | .ref r => r.accession
  | .rel r => r.accession

/-- Lookup in the `terms` dict by a string key, using the accession-based
equality of the stored key objects. -/
def termsFind : List (TermKey × Entity) → String → Option Entity
  | [], _ => none
  | (k, v) :: rest, key => if k.acc = key then some v else termsFind rest key

/-- Assignment into the `terms` dict: the stored key object is kept when a key
equal to the new one is already present. -/
def termsSet : List (TermKey × Entity) → TermKey → Entity → List (TermKey × Entity)
  | [], k, v => [(k, v)]
  | (k', v') :: rest, k, v =>
    if k'.acc = k.acc then (k', v) :: rest else (k', v') :: termsSet rest k v

/-- Using an `OboValue` as a dict key: strings and the (hashable) `Reference`
and `Relationship` objects work; lists raise `TypeError`. -/
def OboValue.toKey : OboValue → Except String TermKey
  | .str s => .ok (.str s)
  | .ref r => .ok (.ref r)
  | .rel r => .ok (.rel r)
  | .strs _ => .error "TypeError: unhashable type: list"
  | .refs _ => .error "TypeError: unhashable type: list"

/-- `pack`: collapse a single-valued list to its scalar, keep multi-valued
lists. -/
def collapseVals : List String → OboValue
  | [v] => .str v
  | vs => .strs vs

/-- The `is_a` step of `pack`: a string value becomes one `Reference`, a list
becomes a list of `Reference`s.  Accumulator values are always strings or
lists of strings, so other shapes cannot occur here. -/
def applyIsA (e : Entity) : Entity :=
  match alistFind e "is_a" with
  | some (.str s) => alistSet e "is_a" (.ref (Reference.fromstring s))
  | some (.strs ss) => alistSet e "is_a" (.refs (ss.map Reference.fromstring))
  | _ => e

/-- The raw relationship strings of a record: a scalar is wrapped in a
singleton list.  Accumulator values are always strings or lists of strings. -/
def relationshipStrings (e : Entity) : Option (List String) :=
  match alistFind e "relationship" with
  | some (.str s) => some [s]
  | some (.strs ss) => some ss
  | _ => none

def parseRels : List String → Except String (List Relationship)
  | [] => .ok []
  | s :: rest =>
    match Relationship.fromstring s with
    | .error e => .error e
    | .ok r => (parseRels rest).map fun rs => r :: rs

/-- The relationship step of `pack`: each parsed relationship is installed
under its own predicate name; the `relationship` key itself is left with the
raw string value(s). -/
def applyRels (e : Entity) : Except String Entity :=
  match relationshipStrings e with
  | none => .ok e
  | some ss =>
    match parseRels ss with
    | .error err => .error err
    | .ok rels => .ok (rels.foldl (fun acc r => alistSet acc r.predicate (OboValue.rel r)) e)

/-- `OBOParser.pack` on one accumulated stanza: collapse values, process
`is_a` and `relationship`, then key the record by its `id` field
(`KeyError` if absent). -/
def packEntity (stanza : List (String × List String)) : Except String (TermKey × Entity) :=
  let entity := stanza.map fun kv => (kv.1, collapseVals kv.2)
  let entity := applyIsA entity
  match applyRels entity with
  | .error e => .error e
  | .ok entity =>
    match alistFind entity "id" with
    | none => .error "KeyError: id"
    | some idv =>
      match OboValue.toKey idv with
      | .error e => .error e
      | .ok k => .ok (k, entity)

structure OBOParserState where
  terms : List (TermKey × Entity)
  current : Option (List (String × List String))
deriving DecidableEq

/-- `pack` as called from the parse loop: a no-op when no stanza is open. -/
def flushCurrent (st : OBOParserState) : Except String OBOParserState :=
  match st.current with
  | none => .ok st
  | some stanza =>
    match packEntity stanza with
    | .error e => .error e
    | .ok kent => .ok ⟨termsSet st.terms kent.1 kent.2, none⟩

/-- Append to the accumulator's list for `key` (defaultdict(list)). -/
def stanzaAppend : List (String × List String) → String → String → List (String × List String)
  | [], k, v => [(k, [v])]
  | (k', vs) :: rest, k, v =>
    if k' = k then (k', vs ++ [v]) :: rest else (k', vs) :: stanzaAppend rest k v

/-- `str.partition(":")` restricted to the two components the parser uses. -/
def partitionColon (s : String) : String × String :=
  match strSplitOn ':' s with
  | [] => (s, "")
  | [a] => (a, "")
  | a :: rest => (a, strIntercalate ':' rest)

/-- One iteration of `OBOParser.parse`'s line loop. -/
def parseStep (st : OBOParserState) (rawLine : String) : Except String OBOParserState :=
  let line := strTrim rawLine
  if line = "" then .ok st
  else if line = "[Typedef]" then
    match flushCurrent st with
    | .error e => .error e
    | .ok st' => .ok ⟨st'.terms, none⟩
  else if line = "[Term]" then
    match flushCurrent st with
    | .error e => .error e
    | .ok st' => .ok ⟨st'.terms, some []⟩
  else
    match st.current with
    | none => .ok st
    | some stanza =>
      let kv := partitionColon line
      .ok ⟨st.terms, some (stanzaAppend stanza kv.1 (strTrim kv.2))⟩

def parseLoop : OBOParserState → List String → Except String OBOParserState
  | st, [] => flushCurrent st
  | st, l :: rest =>
    match parseStep st l with
    | .error e => .error e
    | .ok st' => parseLoop st' rest

/-- `OBOParser.parse` over a whole line stream, yielding the terms mapping. -/
def parseLines (lines : List String) : Except String (List (TermKey × Entity)) :=
  (parseLoop ⟨[], none⟩ lines).map OBOParserState.terms

/-! ## ControlledVocabulary (controlled_vocabulary.py) -/

/-- `_names = {v['name']: v for v in terms.values()}`: later terms overwrite
earlier ones on a duplicate name; a term whose `name` field is missing or not
a plain string makes the constructor raise (`KeyError` here, or
`AttributeError` when `_normalized` calls `.lower()` on it). -/
def buildNames (ts : List (TermKey × Entity)) : Except String (List (String × Entity)) :=
  ts.foldlM
    (fun (acc : List (String × Entity)) (kv : TermKey × Entity) =>
      match alistFind kv.2 "name" with
      | some (.str n) => .ok (alistSet acc n kv.2)
      | some _ => .error "TypeError: name value is not a plain string"
      | none => .error "KeyError: name")
    []

/-- `_normalized = {v['name'].lower(): v['name'] for v in terms.values()}`. -/
def buildNormalized (ts : List (TermKey × Entity)) : Except String (List (String × String)) :=
  ts.foldlM
    (fun (acc : List (String × String)) (kv : TermKey × Entity) =>
      match alistFind kv.2 "name" with
      | some (.str n) => .ok (alistSet acc (strToLower n) n)
      | some _ => .error "TypeError: name value is not a plain string"
      | none => .error "KeyError: name")
    []

structure ControlledVocabulary where
  terms : List (TermKey × Entity)
  names : List (String × Entity)
  normalized : List (String × String)
  id : Option String
deriving DecidableEq

/-- `ControlledVocabulary.__init__(terms, id)`. -/
def ControlledVocabulary.build (ts : List (TermKey × Entity)) (id : Option String) :
    Except String ControlledVocabulary :=
  match buildNames ts with
  | .error e => .error e
  | .ok names =>
    match buildNormalized ts with
    | .error e => .error e
    | .ok normalized => .ok ⟨ts, names, normalized, id⟩

/-- `ControlledVocabulary.from_obo`. -/
def ControlledVocabulary.from_obo (lines : List String) : Except String ControlledVocabulary :=
  match parseLines lines with
  | .error e => .error e
  | .ok ts => ControlledVocabulary.build ts none

/-- `ControlledVocabulary.__getitem__`: exact id, then exact name, then
normalized (lowercased) name; a total miss raises a `KeyError` carrying the
two failed lookup keys (the original request and the normalization attempt). -/
def ControlledVocabulary.getitem (cv : ControlledVocabulary) (key : String) :
    Except (String × String) Entity :=
  match termsFind cv.terms key with
  | some t => .ok t
  | none =>
    match alistFind cv.names key with
    | some t => .ok t
    | none =>
      match alistFind cv.normalized (strToLower key) with
      | none => .error (key, strToLower key)
      | some nm =>
        match alistFind cv.names nm with
        | some t => .ok t
        | none => .error (key, nm)

/-! ## VocabularyResolver (components.py) -/

/-- The attributes of a `CVParam`/`UserParam` element that `param` sets. -/
structure CVParam where
  name : String
  accession : Option OboValue
  ref : Option String
  value : Option String
deriving DecidableEq

/-- A qualified (`cvParam`) or user-defined (`userParam`) parameter. -/
inductive Param where
  | cv (p : CVParam)
  | user (p : CVParam)
deriving DecidableEq

/-- One vocabulary as seen by the resolver: the `CV` wrapper's `id` attribute
(its source tag) plus the loaded `ControlledVocabulary`. -/
structure CVSource where
  id : String
  vocab : ControlledVocabulary
deriving DecidableEq

/-- One iteration of `VocabularyResolver.param`'s search loop over the running
`(name, accession, cv_ref)` state: on a hit the name is replaced by the term's
canonical name, then accession and cv_ref are overwritten; every exception is
swallowed, leaving the assignments already made in place.  A `name` value that
is not a plain string cannot occur in a vocabulary accepted by
`ControlledVocabulary.build`. -/
def paramStep (cv : CVSource) (st : String × Option OboValue × Option String) :
    String × Option OboValue × Option String :=
  match cv.vocab.getitem st.1 with
  | .error _ => st
  | .ok term =>
    match alistFind term "name" with
    | none => st
    | some (.str n) =>
      match alistFind term "id" with
      | none => (n, st.2.1, st.2.2)
      | some iv => (n, some iv, some cv.id)
    | some _ => st

/-- `VocabularyResolver.param(name, value, cv_ref)` (no extra keyword
arguments): an input that is already a parameter object is returned unchanged;
with an explicit `cv_ref` no search happens; otherwise the vocabulary list is
scanned and the result is qualified exactly when some lookup set `cv_ref`. -/
def VocabularyResolver.param (vocabs : List CVSource) (name : Param ⊕ String)
    (value : Option String) (cv_ref : Option String) : Param :=
  match name with
  | .inl p => p
  | .inr nm =>
    match cv_ref with
    | some r => Param.cv ⟨nm, none, some r, value⟩
    | none =>
      let st := vocabs.foldl (fun st cv => paramStep cv st) (nm, none, none)
      match st.2.2 with
      | none => Param.user ⟨st.1, none, none, value⟩
      | some r => Param.cv ⟨st.1, st.2.1, some r, value⟩

/-! ## Document reference context (components.py) -/

/-- `SpecializedContextCache`: a per-type mapping from declared id to
reference string. -/
structure SpecializedContextCache where
  type_name : String
  entries : List (PyId × String)
deriving DecidableEq

/-- `SpecializedContextCache.__getitem__`: return the stored reference, or
warn (`"No reference was found for %d in %s"`) and synthesize one with
`id_maker`, storing it.  The `%d` directive raises `TypeError` on a string id.
The returned flag records whether the dangling-reference warning was
emitted. -/
def SpecializedContextCache.getitem (c : SpecializedContextCache) (key : PyId) :
    Except String (String × SpecializedContextCache × Bool) :=
  match alistFind c.entries key with
  | some item => .ok (item, c, false)
  | none =>
    match pyFormatD key with
    | none => .error "TypeError: %d format: a number is required, not str"
    | some _ =>
      match id_maker c.type_name key with
      | none => .error "TypeError: %d format: a number is required, not str"
      | some new_value =>
        .ok (new_value, ⟨c.type_name, alistSet c.entries key new_value⟩, true)

/-- `self[key] = value` on a `SpecializedContextCache`. -/
def SpecializedContextCache.setitem (c : SpecializedContextCache) (key : PyId) (value : String) :
    SpecializedContextCache :=
  ⟨c.type_name, alistSet c.entries key value⟩

/-- `DocumentContext`: one `SpecializedContextCache` per entity-type name
(created lazily by `__missing__`), plus the vocabulary list of the mixed-in
`VocabularyResolver`. -/
structure DocumentContext where
  caches : List (String × SpecializedContextCache)
  vocabularies : List CVSource
deriving DecidableEq

/-- `context[T]` with the `__missing__` hook: a previously-unseen type name
gets a fresh empty cache stored under it. -/
def DocumentContext.getCache (ctx : DocumentContext) (T : String) :
    SpecializedContextCache × DocumentContext :=
  match alistFind ctx.caches T with
  | some c => (c, ctx)
  | none => (⟨T, []⟩, ⟨alistSet ctx.caches T ⟨T, []⟩, ctx.vocabularies⟩)

/-- `context[T][X]`: the resolve operation.  Returns the reference string, the
updated context, and whether the dangling-reference warning fired. -/
def DocumentContext.resolve (ctx : DocumentContext) (T : String) (X : PyId) :
    Except String (String × DocumentContext × Bool) :=
  let p := ctx.getCache T
  match SpecializedContextCache.getitem p.1 X with
  | .error e => .error e
  | .ok q => .ok (q.1, ⟨alistSet p.2.caches T q.2.1, p.2.vocabularies⟩, q.2.2)

/-- `context[T][X] = v`, as performed by component constructors. -/
def DocumentContext.setRef (ctx : DocumentContext) (T : String) (X : PyId) (v : String) :
    DocumentContext :=
  let p := ctx.getCache T
  ⟨alistSet p.2.caches T (SpecializedContextCache.setitem p.1 X v), p.2.vocabularies⟩

/-- The reference string currently stored for `(T, X)`, if any. -/
def storedRef (ctx : DocumentContext) (T : String) (X : PyId) : Option String :=
  match alistFind ctx.caches T with
  | none => none
  | some c => alistFind c.entries X

/-- The value and warning flag of a resolve, without the updated context. -/
def resolveVW (ctx : DocumentContext) (T : String) (X : PyId) :
    Except String (String × Bool) :=
  (ctx.resolve T X).map fun r => (r.1, r.2.2)

/-- The context state after a resolve (unchanged if the resolve raised). -/
def nextCtx (ctx : DocumentContext) (T : String) (X : PyId) : DocumentContext :=
  match ctx.resolve T X with
  | .ok r => r.2.1
  | .error _ => ctx

/-- Every cache is stored under its own type name: true of every context built
through `DocumentContext.__missing__`. -/
def DocumentContext.WF (ctx : DocumentContext) : Bool :=
  ctx.caches.all fun kc => kc.2.type_name == kc.1

/-- `ComponentDispatcher.register(entity_type, id)`: construct the reference
with `id_maker` and store it unconditionally. -/
def ComponentDispatcher.register (ctx : DocumentContext) (T : String) (X : PyId) :
    Except String (String × DocumentContext) :=
  match id_maker T X with
  | none => .error "TypeError: %d format: a number is required, not str"
  | some value => .ok (value, ctx.setRef T X value)

/-- The value returned by `register`, without the updated context. -/
def registerValue (ctx : DocumentContext) (T : String) (X : PyId) : Except String String :=
  (ComponentDispatcher.register ctx T X).map fun r => r.1

/-- The context state after a `register` (unchanged if it raised). -/
def afterRegister (ctx : DocumentContext) (T : String) (X : PyId) : DocumentContext :=
  match ComponentDispatcher.register ctx T X with
  | .ok r => r.2
  | .error _ => ctx

/-! ## Entity components (components.py) -/

/-- The `TagBase.id` property: a caller-given string id is used as-is, a
numeric id goes through `id_maker` with the tag name. -/
def TagBase.refId (tag_name : String) : PyId → String
  | .str s => s
  | .int n => id_makerInt tag_name n

/-- components.py line 374: the module-level default context, shared by every
component constructed without an explicit `context` argument. -/
def NullMap : DocumentContext := ⟨[], []⟩

/-- The fields of a `DBSequence` component relevant to cross-referencing. -/
structure DBSequenceRec where
  accession : String
  sequence : String
  search_database_ref : String
  refId : String
deriving DecidableEq

/-- `DBSequence.__init__`: resolve the cited search database through the
context (the module-level `NullMap` when no `context` argument is given,
modelled by the explicitly threaded state), then store the element's own
reference under `DBSequence`. -/
def DBSequence.init (accession sequence : String) (id search_database_id : PyId)
    (ctx : DocumentContext) : Except String (DBSequenceRec × DocumentContext) :=
  match ctx.resolve "SearchDatabase" search_database_id with
  | .error e => .error e
  | .ok r =>
    let eid := TagBase.refId "DBSequence" id
    .ok (⟨accession, sequence, r.1, eid⟩, r.2.1.setRef "DBSequence" id eid)

/-- The fields of a `PeptideEvidence` component relevant to
cross-referencing. -/
structure PeptideEvidenceRec where
  peptide_ref : String
  dBSequence_ref : String
  refId : String
deriving DecidableEq

/-- `PeptideEvidence.__init__`: resolve the cited peptide and database
sequence, then store the element's own reference. -/
def PeptideEvidence.init (peptide_id db_sequence_id id : PyId) (ctx : DocumentContext) :
    Except String (PeptideEvidenceRec × DocumentContext) :=
  match ctx.resolve "Peptide" peptide_id with
  | .error e => .error e
  | .ok rp =>
    match rp.2.1.resolve "DBSequence" db_sequence_id with
    | .error e => .error e
    | .ok rd =>
      let eid := TagBase.refId "PeptideEvidence" id
      .ok (⟨rp.1, rd.1, eid⟩, rd.2.1.setRef "PeptideEvidence" id eid)

/-! ## OBOCache (controlled_vocabulary.py) -/

/-- The transport layer (`urlopen`): a response code and body per locator. -/
structure Transport where
  code : String → Int
  lines : String → List String

/-- `os.path.basename`. -/
def basename (p : String) : String :=
  (strSplitOn '/' p).getLastD ""

/-- `OBOCache.__init__` state: cache directory, whether it exists, the enabled
flag and the set of locators with a custom resolver. -/
structure OBOCache where
  cache_path : String
  cache_exists : Bool
  enabled : Bool
  resolvers : List String
deriving DecidableEq

/-- `OBOCache.path_for`: create the cache directory on first need, take the
basename of the locator, ensure the `.obo` suffix when `setext`, and join with
the cache directory. -/
def OBOCache.path_for (c : OBOCache) (name : String) (setext : Bool) : String × OBOCache :=
  let c := if c.cache_exists then c else ⟨c.cache_path, true, c.enabled, c.resolvers⟩
  let base := basename name
  let base := if !(strEndsWith base ".obo") && setext then base ++ ".obo" else base
  (c.cache_path ++ "/" ++ base, c)

/-- What `OBOCache.resolve` hands back: an open stream, or the marker that a
registered custom resolver was delegated to. -/
inductive ResolveResult where
  | handle (content : List String)
  | custom
deriving DecidableEq

/-- `OBOCache.resolve(uri)` over an explicit filesystem (path to lines) and
transport.  The last component counts the network fetches performed by this
call. -/
def OBOCache.resolve (c : OBOCache) (fs : List (String × List String)) (t : Transport)
    (uri : String) :
    Except String ResolveResult × OBOCache × List (String × List String) × Nat :=
  if c.resolvers.contains uri then (.ok .custom, c, fs, 0)
  else if c.enabled then
    let pc := c.path_for uri true
    match alistFind fs pc.1 with
    | some content => (.ok (.handle content), pc.2, fs, 0)
    | none =>
      if t.code uri ≠ 200 then (.error (uri ++ " did not resolve"), pc.2, fs, 1)
      else (.ok (.handle (t.lines uri)), pc.2, alistSet fs pc.1 (t.lines uri), 1)
  else (.ok (.handle (t.lines uri)), c, fs, 1)

/-! ## Writer session (writer.py) -/

/-- The effects on the output sink observable during a writer session. -/
inductive SinkEvent where
  | enterXmlfile
  | openToplevel
  | closeToplevel
  | flushWriter
  | exitXmlfile
  | closeOutfile
deriving DecidableEq

/-- `MzIdentMLWriter.__enter__`: enter the incremental xmlfile and open the
toplevel `MzIdentML` element. -/
def enterEvents : List SinkEvent := [.enterXmlfile, .openToplevel]

/-- `MzIdentMLWriter.__exit__`: close the toplevel element, flush the writer,
leave the xmlfile and close the output sink. -/
def exitEvents : List SinkEvent := [.closeToplevel, .flushWriter, .exitXmlfile, .closeOutfile]

/-- How the with-block body ends: normal completion, or an exception raised
after some prefix of its sink effects. -/
inductive Outcome where
  | normal
  | raised (afterSteps : Nat)

def bodyTrace (body : List SinkEvent) : Outcome → List SinkEvent
  | .normal => body
  | .raised k => body.take k

/-- The Python `with` statement runs `__enter__`, then the body (possibly cut
short by an exception), then `__exit__`, exactly once on every exit path. -/
def sessionTrace (body : List SinkEvent) (o : Outcome) : List SinkEvent :=
  enterEvents ++ bodyTrace body o ++ exitEvents

def countEvent (e : SinkEvent) : List SinkEvent → Nat
  | [] => 0
  | x :: rest => (if x = e then 1 else 0) + countEvent e rest

/-! ## Concrete fixtures -/

/-- A vocabulary with one term named `foo`, accession `A:1`, source tag `A`. -/
def entA : Entity := [("id", .str "A:1"), ("name", .str "foo")]

def cvA : ControlledVocabulary :=
  ⟨[(.str "A:1", entA)], [("foo", entA)], [("foo", "foo")], some "A"⟩

def srcA : CVSource := ⟨"A", cvA⟩

/-- A second vocabulary also defining a term named `foo`, accession `B:1`,
source tag `B`. -/
def entB : Entity := [("id", .str "B:1"), ("name", .str "foo")]

def cvB : ControlledVocabulary :=
  ⟨[(.str "B:1", entB)], [("foo", entB)], [("foo", "foo")], some "B"⟩

def srcB : CVSource := ⟨"B", cvB⟩

/-- The term record parsed from `[Term] / id: MS:1 / name: foo`. -/
def entC5 : Entity := [("id", .str "MS:1"), ("name", .str "foo")]

/-- The vocabulary built from that single stanza. -/
def cvC5 : ControlledVocabulary :=
  ⟨[(.str "MS:1", entC5)], [("foo", entC5)], [("foo", "foo")], none⟩

/-- The record packed from a stanza with a
`relationship: has_regexp MS:2 ! comment` line. -/
def c6entity : Entity :=
  [("id", .str "MS:1"), ("name", .str "bar"),
   ("relationship", .str "has_regexp MS:2 ! comment"),
   ("has_regexp", .rel ⟨"has_regexp", "MS:2", some "comment"⟩)]

/-- The shared default context after one `DBSequence` construction. -/
def NullMap1 : DocumentContext :=
  ⟨[("SearchDatabase", ⟨"SearchDatabase", [(.int 1, "SEARCHDATABASE_1")]⟩),
    ("DBSequence", ⟨"DBSequence", [(.int 1, "DBSEQUENCE_1")]⟩)], []⟩

/-- The shared default context after a further `PeptideEvidence`
construction. -/
def NullMap2 : DocumentContext :=
  ⟨[("SearchDatabase", ⟨"SearchDatabase", [(.int 1, "SEARCHDATABASE_1")]⟩),
    ("DBSequence", ⟨"DBSequence", [(.int 1, "DBSEQUENCE_1")]⟩),
    ("Peptide", ⟨"Peptide", [(.int 2, "PEPTIDE_2")]⟩),
    ("PeptideEvidence", ⟨"PeptideEvidence", [(.int 9, "PEPTIDEEVIDENCE_9")]⟩)], []⟩

/-! ## Registry lemmas -/

theorem all_typeName_find {l : List (String × SpecializedContextCache)} {T : String}
    {c : SpecializedContextCache}
    (hall : (l.all fun kc => kc.2.type_name == kc.1) = true)
    (h : alistFind l T = some c) : c.type_name = T := by
  induction l with
  | nil => simp [alistFind] at h
  | cons hd t ih =>
    obtain ⟨k, v⟩ := hd
    simp only [List.all_cons, Bool.and_eq_true, beq_iff_eq] at hall
    simp only [alistFind] at h
    by_cases hk : k = T
    · subst hk
      rw [if_pos rfl] at h
      have hv := Option.some.inj h
      subst hv
      exact hall.1
    · rw [if_neg hk] at h
      exact ih hall.2 h

/-- A stored reference makes `resolve` a pure hit: same string back, no
warning. -/
theorem resolve_hit (ctx : DocumentContext) (T : String) (X : PyId) (v : String)
    (hst : storedRef ctx T X = some v) :
    resolveVW ctx T X = .ok (v, false) := by
  cases hfind : alistFind ctx.caches T with
  | none => simp [storedRef, hfind] at hst
  | some c =>
    have hent : alistFind c.entries X = some v := by
      simpa [storedRef, hfind] using hst
    simp [resolveVW, DocumentContext.resolve, DocumentContext.getCache, hfind,
      SpecializedContextCache.getitem, hent, Except.map]

/-- Anatomy of a successful `resolve`: the returned string is stored in the
returned context, and a warned (synthesized) resolution concerns a numeric id
and returns exactly the `id_maker` string for it. -/
theorem resolve_spec (ctx : DocumentContext) (T : String) (X : PyId) (v : String)
    (ctx' : DocumentContext) (w : Bool) (hWF : ctx.WF = true)
    (h : ctx.resolve T X = .ok (v, ctx', w)) :
    storedRef ctx' T X = some v ∧
    (w = true → ∃ n, X = PyId.int n ∧ v = id_makerInt T n) := by
  simp only [DocumentContext.WF] at hWF
  cases hfind : alistFind ctx.caches T with
  | some c =>
    have hty : c.type_name = T := all_typeName_find hWF hfind
    cases hent : alistFind c.entries X with
    | some item =>
      simp only [DocumentContext.resolve, DocumentContext.getCache, hfind,
        SpecializedContextCache.getitem, hent, Except.ok.injEq, Prod.mk.injEq] at h
      obtain ⟨h1, h2, h3⟩ := h
      subst h1
      constructor
      · rw [← h2]
        simp [storedRef, alistFind_set_self, hent]
      · intro hw
        rw [← h3] at hw
        cases hw
    | none =>
      cases X with
      | str s =>
        simp [DocumentContext.resolve, DocumentContext.getCache, hfind,
          SpecializedContextCache.getitem, hent, pyFormatD] at h
      | int n =>
        simp only [DocumentContext.resolve, DocumentContext.getCache, hfind,
          SpecializedContextCache.getitem, hent, pyFormatD, id_maker,
          Except.ok.injEq, Prod.mk.injEq] at h
        obtain ⟨h1, h2, h3⟩ := h
        constructor
        · rw [← h2]
          simp [storedRef, alistFind_set_self, ← h1, hty]
        · intro _
          exact ⟨n, rfl, by rw [← h1, hty]⟩
  | none =>
    cases X with
    | str s =>
      simp [DocumentContext.resolve, DocumentContext.getCache, hfind,
        SpecializedContextCache.getitem, alistFind, pyFormatD] at h
    | int n =>
      simp only [DocumentContext.resolve, DocumentContext.getCache, hfind,
        SpecializedContextCache.getitem, alistFind, pyFormatD, id_maker,
        Except.ok.injEq, Prod.mk.injEq] at h
      obtain ⟨h1, h2, h3⟩ := h
      constructor
      · rw [← h2]
        simp [storedRef, alistFind_set_self, ← h1]
      · intro _
        exact ⟨n, rfl, h1.symm⟩

/-- `setRef` stores the assigned value. -/
theorem storedRef_setRef_self (ctx : DocumentContext) (T : String) (X : PyId) (v : String) :
    storedRef (ctx.setRef T X v) T X = some v := by
  cases hfind : alistFind ctx.caches T with
  | some c =>
    simp [DocumentContext.setRef, DocumentContext.getCache, hfind, storedRef,
      SpecializedContextCache.setitem, alistFind_set_self]
  | none =>
    simp [DocumentContext.setRef, DocumentContext.getCache, hfind, storedRef,
      SpecializedContextCache.setitem, alistFind_set_self]

/-! ## Claims -/

/-- C1: for every entity-type name T and id X on a well-formed context (every
cache stored under its own type name, as `__missing__` guarantees), a
successful resolve followed by a second resolve returns the identical
reference string (with no further warning), and when the first resolve
synthesized the reference, a subsequent `register(T, X)` returns that same
string and leaves the stored value unchanged — the first resolution's string
wins. -/
theorem C1_reference_stability (ctx : DocumentContext) (T : String) (X : PyId)
    (v : String) (ctx' : DocumentContext) (w : Bool)
    (hWF : ctx.WF = true)
    (h : ctx.resolve T X = .ok (v, ctx', w)) :
    resolveVW ctx' T X = .ok (v, false) ∧
    (w = true →
      registerValue ctx' T X = .ok v ∧
      storedRef (afterRegister ctx' T X) T X = some v ∧
      storedRef ctx' T X = some v) := by
  obtain ⟨hst, hsyn⟩ := resolve_spec ctx T X v ctx' w hWF h
  refine ⟨resolve_hit ctx' T X v hst, ?_⟩
  intro hw
  obtain ⟨n, hX, hv⟩ := hsyn hw
  subst hX
  refine ⟨?_, ?_, hst⟩
  · simp [registerValue, ComponentDispatcher.register, id_maker, hv, Except.map]
  · simp only [afterRegister, ComponentDispatcher.register, id_maker]
    rw [storedRef_setRef_self]
    rw [hv]

/-- The context reached by resolving Peptide/5 on an empty context. -/
def ctxP5 : DocumentContext :=
  ⟨[("Peptide", ⟨"Peptide", [(.int 5, "PEPTIDE_5")]⟩)], []⟩

theorem C1_reference_stability_witness :
    resolveVW ctxP5 "Peptide" (.int 5) = .ok ("PEPTIDE_5", false) ∧
    (true = true →
      registerValue ctxP5 "Peptide" (.int 5) = .ok "PEPTIDE_5" ∧
      storedRef (afterRegister ctxP5 "Peptide" (.int 5)) "Peptide" (.int 5) =
        some "PEPTIDE_5" ∧
      storedRef ctxP5 "Peptide" (.int 5) = some "PEPTIDE_5") :=
  C1_reference_stability ⟨[], []⟩ "Peptide" (.int 5) "PEPTIDE_5" ctxP5 true
    (by decide) (by decide)

/-- C2 (amended to numeric ids): resolving a never-registered numeric id X
under type name T on a well-formed context emits the dangling-reference
warning, returns the synthesized string `T.upper() + "_" + str(X)`, stores it,
and a subsequent request returns the same string without warning; the lookup
is not aborted.  For a string id the claim fails: see the counterexample. -/
theorem C2_numeric_id_synthesis (ctx : DocumentContext) (T : String) (n : Int)
    (hWF : ctx.WF = true)
    (h : storedRef ctx T (.int n) = none) :
    resolveVW ctx T (.int n) = .ok (strToUpper T ++ "_" ++ toString n, true) ∧
    storedRef (nextCtx ctx T (.int n)) T (.int n) =
      some (strToUpper T ++ "_" ++ toString n) ∧
    resolveVW (nextCtx ctx T (.int n)) T (.int n) =
      .ok (strToUpper T ++ "_" ++ toString n, false) := by
  simp only [DocumentContext.WF] at hWF
  have key : ctx.resolve T (.int n) =
      .ok (id_makerInt T n, nextCtx ctx T (.int n), true) ∧
      storedRef (nextCtx ctx T (.int n)) T (.int n) = some (id_makerInt T n) := by
    cases hfind : alistFind ctx.caches T with
    | some c =>
      have hty : c.type_name = T := all_typeName_find hWF hfind
      have hent : alistFind c.entries (PyId.int n) = none := by
        simpa [storedRef, hfind] using h
      have hres : ctx.resolve T (.int n) =
          .ok (id_makerInt T n,
            ⟨alistSet ctx.caches T ⟨c.type_name, alistSet c.entries (.int n) (id_makerInt c.type_name n)⟩,
              ctx.vocabularies⟩, true) := by
        simp [DocumentContext.resolve, DocumentContext.getCache, hfind,
          SpecializedContextCache.getitem, hent, pyFormatD, id_maker, hty]
      refine ⟨?_, ?_⟩
      · rw [hres, nextCtx, hres]
      · rw [nextCtx, hres]
        simp [storedRef, alistFind_set_self, hty]
    | none =>
      have hres : ctx.resolve T (.int n) =
          .ok (id_makerInt T n,
            ⟨alistSet (alistSet ctx.caches T ⟨T, []⟩) T ⟨T, alistSet [] (.int n) (id_makerInt T n)⟩,
              ctx.vocabularies⟩, true) := by
        simp [DocumentContext.resolve, DocumentContext.getCache, hfind,
          SpecializedContextCache.getitem, alistFind, pyFormatD, id_maker]
      refine ⟨?_, ?_⟩
      · rw [hres, nextCtx, hres]
      · rw [nextCtx, hres]
        simp [storedRef, alistFind_set_self, alistFind]
  have hform : id_makerInt T n = strToUpper T ++ "_" ++ toString n := rfl
  refine ⟨?_, ?_, ?_⟩
  · rw [resolveVW, key.1, ← hform]
    rfl
  · rw [← hform]
    exact key.2
  · rw [← hform]
    exact resolve_hit _ T (.int n) _ key.2

theorem C2_numeric_id_synthesis_witness :
    resolveVW ⟨[], []⟩ "SpectraData" (.int 3) =
      .ok (strToUpper "SpectraData" ++ "_" ++ toString (3 : Int), true) ∧
    storedRef (nextCtx ⟨[], []⟩ "SpectraData" (.int 3)) "SpectraData" (.int 3) =
      some (strToUpper "SpectraData" ++ "_" ++ toString (3 : Int)) ∧
    resolveVW (nextCtx ⟨[], []⟩ "SpectraData" (.int 3)) "SpectraData" (.int 3) =
      .ok (strToUpper "SpectraData" ++ "_" ++ toString (3 : Int), false) :=
  C2_numeric_id_synthesis ⟨[], []⟩ "SpectraData" 3 (by decide) (by decide)

/-- C2 counterexample: resolving a never-registered string id does not return
a synthesized reference; the `%d` interpolation in the warning raises
`TypeError`, aborting the lookup. -/
theorem C2_string_id_counterexample :
    DocumentContext.resolve ⟨[], []⟩ "Peptide" (.str "p1") =
      .error "TypeError: %d format: a number is required, not str" := by
  decide

/-- C3 counterexample: with two configured vocabularies both defining a term
named `foo`, `param` without an explicit `cv_ref` takes accession and source
tag from the SECOND (last) vocabulary, not the first as claimed. -/
theorem C3_first_match_counterexample :
    VocabularyResolver.param [srcA, srcB] (.inr "foo") none none =
      Param.cv ⟨"foo", some (.str "B:1"), some "B", none⟩ ∧
    Param.cv (⟨"foo", some (.str "B:1"), some "B", none⟩ : CVParam) ≠
      Param.cv ⟨"foo", some (.str "A:1"), some "A", none⟩ := by
  decide

/-- C3 (amended): the search loop has no break, so the qualification is taken
from the LAST vocabulary whose lookup succeeds, each hit first replacing the
running name by that vocabulary's canonical name; with two vocabularies that
both recognize the name, the second one's canonical name, accession and
source tag win. -/
theorem C3_last_match_wins (v₁ v₂ : CVSource) (nm : String) (value : Option String)
    (t₁ t₂ : Entity) (n₁ n₂ : String) (i₁ i₂ : OboValue)
    (h₁ : v₁.vocab.getitem nm = .ok t₁)
    (h₂ : alistFind t₁ "name" = some (.str n₁))
    (h₃ : alistFind t₁ "id" = some i₁)
    (h₄ : v₂.vocab.getitem n₁ = .ok t₂)
    (h₅ : alistFind t₂ "name" = some (.str n₂))
    (h₆ : alistFind t₂ "id" = some i₂) :
    VocabularyResolver.param [v₁, v₂] (.inr nm) value none =
      Param.cv ⟨n₂, some i₂, some v₂.id, value⟩ := by
  simp [VocabularyResolver.param, paramStep, h₁, h₂, h₃, h₄, h₅, h₆]

theorem C3_last_match_wins_witness :
    VocabularyResolver.param [srcA, srcB] (.inr "foo") (some "77") none =
      Param.cv ⟨"foo", some (.str "B:1"), some "B", some "77"⟩ :=
  C3_last_match_wins srcA srcB "foo" (some "77") entA entB "foo" "foo"
    (.str "A:1") (.str "B:1") (by decide) (by decide) (by decide) (by decide)
    (by decide) (by decide)

/-- Every lookup of `nm` failing leaves the search state untouched. -/
theorem param_all_miss_fold (vocabs : List CVSource) (nm : String)
    (h : ∀ cv ∈ vocabs, exceptIsOk (cv.vocab.getitem nm) = false) :
    vocabs.foldl (fun st cv => paramStep cv st) (nm, none, none) = (nm, none, none) := by
  induction vocabs with
  | nil => rfl
  | cons cv rest ih =>
    have hcv := h cv (by simp)
    have hstep : paramStep cv (nm, (none : Option OboValue), (none : Option String)) =
        (nm, none, none) := by
      cases hget : cv.vocab.getitem nm with
      | ok t => rw [hget] at hcv; cases hcv
      | error e => simp [paramStep, hget]
    simp only [List.foldl, hstep]
    exact ih fun c hc => h c (by simp [hc])

/-- C4: for a name recognized by no configured vocabulary, `param(name, value)`
never raises; every per-vocabulary lookup error is swallowed and the result is
an unqualified `UserParam` carrying exactly the input name and value, with no
accession and no vocabulary reference. -/
theorem C4_unrecognized_fallback (vocabs : List CVSource) (nm : String)
    (value : Option String)
    (h : ∀ cv ∈ vocabs, exceptIsOk (cv.vocab.getitem nm) = false) :
    VocabularyResolver.param vocabs (.inr nm) value none =
      Param.user ⟨nm, none, none, value⟩ := by
  simp [VocabularyResolver.param, param_all_miss_fold vocabs nm h]

theorem C4_unrecognized_fallback_witness :
    VocabularyResolver.param [srcA] (.inr "unrecognized annotation") (some "1.5") none =
      Param.user ⟨"unrecognized annotation", none, none, some "1.5"⟩ :=
  C4_unrecognized_fallback [srcA] "unrecognized annotation" (some "1.5")
    (by
      intro cv hc
      simp only [List.mem_singleton] at hc
      subst hc
      decide)

/-- C5: parsing the stanza `[Term] / id: MS:1 / name: foo` and building a
vocabulary from it, the lookups by exact id `MS:1`, exact name `foo` and
case-varied name `Foo` all return the same term record (lookup tries id, then
name, then lowercased-normalized name); and on any vocabulary, when all three
steps miss, lookup fails with a `KeyError` carrying both the original and the
normalized (lowercased) lookup attempts. -/
theorem C5_roundtrip_lookup :
    (ControlledVocabulary.from_obo ["[Term]", "id: MS:1", "name: foo"] = .ok cvC5 ∧
     cvC5.getitem "MS:1" = .ok entC5 ∧
     cvC5.getitem "foo" = .ok entC5 ∧
     cvC5.getitem "Foo" = .ok entC5) ∧
    ∀ (cv : ControlledVocabulary) (key : String),
      termsFind cv.terms key = none →
      alistFind cv.names key = none →
      alistFind cv.normalized (strToLower key) = none →
      cv.getitem key = .error (key, strToLower key) := by
  constructor
  · decide
  · intro cv key h1 h2 h3
    simp [ControlledVocabulary.getitem, h1, h2, h3]

theorem C5_roundtrip_lookup_witness :
    ControlledVocabulary.getitem cvC5 "baz" = .error ("baz", strToLower "baz") :=
  C5_roundtrip_lookup.2 cvC5 "baz" (by decide) (by decide) (by decide)

/-- C6 counterexample: after packing a stanza with
`relationship: has_regexp MS:2 ! comment`, the `relationship` key of the
packed record still holds the raw string, not a `Relationship` object (the
parsed objects are only installed under their predicate names). -/
theorem C6_relationship_key_counterexample :
    parseLines ["[Term]", "id: MS:1", "name: bar",
        "relationship: has_regexp MS:2 ! comment"] =
      .ok [(.str "MS:1", c6entity)] ∧
    (alistFind c6entity "relationship").map OboValue.isRel = some false := by
  decide

/-- C6 (amended): the relationship line yields a `Relationship` object
(predicate `has_regexp`, target `MS:2`, comment) under the predicate-named key
`has_regexp`, while the `relationship` key keeps the raw stanza string; and
the comment part after `!` is mandatory: `Relationship.fromstring` raises on a
line without it. -/
theorem C6_relationship_exposure :
    parseLines ["[Term]", "id: MS:1", "name: bar",
        "relationship: has_regexp MS:2 ! comment"] =
      .ok [(.str "MS:1", c6entity)] ∧
    alistFind c6entity "has_regexp" =
      some (.rel ⟨"has_regexp", "MS:2", some "comment"⟩) ∧
    alistFind c6entity "relationship" =
      some (.str "has_regexp MS:2 ! comment") ∧
    Relationship.fromstring "has_regexp MS:2" =
      .error "AttributeError: groupdict of None" := by
  decide

/-- The `is_a` step only touches the `is_a` key. -/
theorem applyIsA_find_ne (e : Entity) (k : String) (hk : k ≠ "is_a") :
    alistFind (applyIsA e) k = alistFind e k := by
  cases h : alistFind e "is_a" with
  | none => simp [applyIsA, h]
  | some v => cases v <;> simp [applyIsA, h, alistFind_set_ne _ _ _ _ hk]

/-- Reading back the raw relationship strings of a collapsed value. -/
theorem relationshipStrings_eq (e : Entity) (vs : List String)
    (h : alistFind e "relationship" = some (collapseVals vs)) :
    relationshipStrings e = some vs := by
  match vs with
  | [] => simp [relationshipStrings, h, collapseVals]
  | [a] => simp [relationshipStrings, h, collapseVals]
  | a :: b :: t => simp [relationshipStrings, h, collapseVals]

/-- Every relationship produced by `parseRels` comes from one of the input
strings. -/
theorem parseRels_mem (ss : List String) (rels : List Relationship)
    (h : parseRels ss = .ok rels) :
    ∀ r ∈ rels, ∃ s ∈ ss, Relationship.fromstring s = .ok r := by
  induction ss generalizing rels with
  | nil =>
    simp only [parseRels, Except.ok.injEq] at h
    subst h
    intro r hr
    cases hr
  | cons s rest ih =>
    simp only [parseRels] at h
    cases hf : Relationship.fromstring s with
    | error e => rw [hf] at h; cases h
    | ok r0 =>
      rw [hf] at h
      cases hp : parseRels rest with
      | error e => rw [hp] at h; cases h
      | ok rs =>
        rw [hp] at h
        simp only [Except.map, Except.ok.injEq] at h
        subst h
        intro r hr
        rcases List.mem_cons.mp hr with hr0 | hrs
        · exact ⟨s, by simp, by rw [hr0]; exact hf⟩
        · obtain ⟨s', hs', hfs'⟩ := ih rs hp r hrs
          exact ⟨s', by simp [hs'], hfs'⟩

/-- Installing relationships whose predicates are all distinct from `id`
cannot create an `id` key. -/
theorem fold_set_preserve (rels : List Relationship) (e : Entity)
    (hid : alistFind e "id" = none)
    (h : ∀ r ∈ rels, r.predicate ≠ "id") :
    alistFind
      (rels.foldl (fun acc r => alistSet acc r.predicate (OboValue.rel r)) e) "id" =
      none := by
  induction rels generalizing e with
  | nil => exact hid
  | cons r rest ih =>
    simp only [List.foldl]
    apply ih
    · rw [alistFind_set_ne _ _ _ _ (fun hh => h r (by simp) hh.symm)]
      exact hid
    · intro r' hr'
      exact h r' (by simp [hr'])

/-- C7 (amended): a `[Term]` stanza with no `id` key whose relationship lines
do not smuggle in an `id` predicate cannot be packed: `pack` raises (a
`KeyError` on the missing id, or already the regex failure of a malformed
relationship line), so the term is not silently dropped. -/
theorem C7_missing_id_fatal (stanza : List (String × List String))
    (hid : alistFind stanza "id" = none)
    (hrel : ∀ s ∈ (alistFind stanza "relationship").getD [],
      ∀ r, Relationship.fromstring s = .ok r → r.predicate ≠ "id") :
    exceptIsOk (packEntity stanza) = false := by
  unfold packEntity
  set e0 : Entity := stanza.map fun kv => (kv.1, collapseVals kv.2) with he0
  have hid0 : alistFind e0 "id" = none := by
    rw [he0, alistFind_map, hid]
    rfl
  have hrel0 : alistFind e0 "relationship" =
      (alistFind stanza "relationship").map collapseVals := by
    rw [he0, alistFind_map]
  set e1 : Entity := applyIsA e0 with he1
  have hid1 : alistFind e1 "id" = none := by
    rw [he1, applyIsA_find_ne _ _ (by decide)]
    exact hid0
  have hrel1 : alistFind e1 "relationship" =
      (alistFind stanza "relationship").map collapseVals := by
    rw [he1, applyIsA_find_ne _ _ (by decide)]
    exact hrel0
  cases har : applyRels e1 with
  | error err => simp [har, exceptIsOk]
  | ok e2 =>
    have hid2 : alistFind e2 "id" = none := by
      cases hfs : alistFind stanza "relationship" with
      | none =>
        have hrs : relationshipStrings e1 = none := by
          simp [relationshipStrings, hrel1, hfs]
        simp only [applyRels, hrs] at har
        have he2 := Except.ok.inj har
        rw [← he2]
        exact hid1
      | some vs =>
        have hrs : relationshipStrings e1 = some vs := by
          apply relationshipStrings_eq
          rw [hrel1, hfs]
          rfl
        cases hpr : parseRels vs with
        | error e =>
          simp only [applyRels, hrs, hpr] at har
          exact Except.noConfusion har
        | ok rels =>
          simp only [applyRels, hrs, hpr] at har
          have he2 := Except.ok.inj har
          rw [← he2]
          apply fold_set_preserve rels e1 hid1
          intro r hr
          obtain ⟨s, hs, hfr⟩ := parseRels_mem vs rels hpr r hr
          exact hrel s (by rw [hfs]; exact hs) r hfr
    simp [har, hid2, exceptIsOk]

theorem C7_missing_id_fatal_witness :
    exceptIsOk (packEntity [("name", ["foo"])]) = false :=
  C7_missing_id_fatal [("name", ["foo"])] (by decide)
    (by
      intro s hs
      have he : (alistFind [("name", ["foo"])] "relationship").getD [] =
          ([] : List String) := by decide
      rw [he] at hs
      exact absurd hs (List.not_mem_nil s))

/-- C7 counterexample: a `[Term]` stanza with no `id` key but with a
relationship line whose predicate is `id` packs successfully — the
`Relationship` object becomes the (hashable) terms-dict key — so parsing does
not raise. -/
theorem C7_relationship_id_counterexample :
    parseLines ["[Term]", "relationship: id MS:2 ! c"] =
      .ok [(.rel ⟨"id", "MS:2", some "c"⟩,
            [("relationship", .str "id MS:2 ! c"),
             ("id", .rel ⟨"id", "MS:2", some "c"⟩)])] := by
  decide

/-- C10: components constructed without an explicit `context` argument
register into the one module-level `NullMap` context: a `DBSequence`
constructed against it stores `DBSEQUENCE_1`, a later unrelated lookup of
`DBSequence`/1 on the shared context finds that exact string without the
dangling-reference warning, and a later default-context `PeptideEvidence`
construction picks it up as its `dBSequence_ref`. -/
theorem C10_shared_default_context :
    DBSequence.init "P02763" "MALSW" (.int 1) (.int 1) NullMap =
      .ok (⟨"P02763", "MALSW", "SEARCHDATABASE_1", "DBSEQUENCE_1"⟩, NullMap1) ∧
    resolveVW NullMap1 "DBSequence" (.int 1) = .ok ("DBSEQUENCE_1", false) ∧
    PeptideEvidence.init (.int 2) (.int 1) (.int 9) NullMap1 =
      .ok (⟨"PEPTIDE_2", "DBSEQUENCE_1", "PEPTIDEEVIDENCE_9"⟩, NullMap2) := by
  decide

/-- `path_for` only sets the directory-exists flag. -/
theorem path_for_snd (c : OBOCache) (u : String) (s : Bool) :
    (c.path_for u s).2 = ⟨c.cache_path, true, c.enabled, c.resolvers⟩ := by
  obtain ⟨cp, ce, en, rs⟩ := c
  cases ce <;> rfl

/-- `path_for` is stable: running it again from its own result state changes
nothing. -/
theorem path_for_stable (c : OBOCache) (u : String) (s : Bool) :
    (c.path_for u s).2.path_for u s = c.path_for u s := by
  obtain ⟨cp, ce, en, rs⟩ := c
  cases ce <;> rfl

/-- C8: with caching enabled, no custom resolver for the locator and no cache
entry under the locator's file name, the first `resolve` performs exactly one
fetch, persists the fetched lines under the cache file named from the
locator's final path segment and returns a handle to that content; the second
`resolve` from the resulting state performs no fetch and reads the persisted
file; and when the transport does not report 200 the call raises
`"<uri> did not resolve"` (after its single fetch). -/
theorem C8_cache_hit (c : OBOCache) (fs : List (String × List String))
    (t tbad : Transport) (uri : String)
    (h₁ : c.resolvers.contains uri = false)
    (h₂ : c.enabled = true)
    (h₃ : alistFind fs (c.path_for uri true).1 = none)
    (h₄ : t.code uri = 200)
    (h₅ : tbad.code uri ≠ 200) :
    OBOCache.resolve c fs t uri =
      (.ok (.handle (t.lines uri)), (c.path_for uri true).2,
        alistSet fs (c.path_for uri true).1 (t.lines uri), 1) ∧
    OBOCache.resolve (c.path_for uri true).2
        (alistSet fs (c.path_for uri true).1 (t.lines uri)) t uri =
      (.ok (.handle (t.lines uri)), (c.path_for uri true).2,
        alistSet fs (c.path_for uri true).1 (t.lines uri), 0) ∧
    OBOCache.resolve c fs tbad uri =
      (.error (uri ++ " did not resolve"), (c.path_for uri true).2, fs, 1) := by
  have h₁' : uri ∉ c.resolvers := by simpa using h₁
  refine ⟨?_, ?_, ?_⟩
  · simp [OBOCache.resolve, h₁', h₂, h₃, h₄]
  · have hr : (c.path_for uri true).2.resolvers = c.resolvers := by
      rw [path_for_snd]
    have he : (c.path_for uri true).2.enabled = c.enabled := by
      rw [path_for_snd]
    simp [OBOCache.resolve, hr, he, h₁', h₂, path_for_stable, alistFind_set_self]
  · simp [OBOCache.resolve, h₁', h₂, h₃, h₅]

theorem C8_cache_hit_witness :
    OBOCache.resolve ⟨".obo_cache", false, true, []⟩ []
        ⟨fun _ => 200, fun _ => ["[Term]", "id: MS:1", "name: foo"]⟩
        "http://example.org/obo/psi-ms.obo" =
      (.ok (.handle ["[Term]", "id: MS:1", "name: foo"]),
        ⟨".obo_cache", true, true, []⟩,
        [(".obo_cache/psi-ms.obo", ["[Term]", "id: MS:1", "name: foo"])], 1) ∧
    OBOCache.resolve ⟨".obo_cache", true, true, []⟩
        [(".obo_cache/psi-ms.obo", ["[Term]", "id: MS:1", "name: foo"])]
        ⟨fun _ => 200, fun _ => ["[Term]", "id: MS:1", "name: foo"]⟩
        "http://example.org/obo/psi-ms.obo" =
      (.ok (.handle ["[Term]", "id: MS:1", "name: foo"]),
        ⟨".obo_cache", true, true, []⟩,
        [(".obo_cache/psi-ms.obo", ["[Term]", "id: MS:1", "name: foo"])], 0) ∧
    OBOCache.resolve ⟨".obo_cache", false, true, []⟩ [] ⟨fun _ => 404, fun _ => []⟩
        "http://example.org/obo/psi-ms.obo" =
      (.error ("http://example.org/obo/psi-ms.obo" ++ " did not resolve"),
        ⟨".obo_cache", true, true, []⟩, [], 1) :=
  C8_cache_hit ⟨".obo_cache", false, true, []⟩ []
    ⟨fun _ => 200, fun _ => ["[Term]", "id: MS:1", "name: foo"]⟩
    ⟨fun _ => 404, fun _ => []⟩ "http://example.org/obo/psi-ms.obo"
    rfl rfl rfl rfl (by decide)

theorem countEvent_append (e : SinkEvent) (l₁ l₂ : List SinkEvent) :
    countEvent e (l₁ ++ l₂) = countEvent e l₁ + countEvent e l₂ := by
  induction l₁ with
  | nil => simp [countEvent]
  | cons x rest ih => simp [countEvent, ih, Nat.add_assoc]

theorem countEvent_zero (e : SinkEvent) (l : List SinkEvent) (h : e ∉ l) :
    countEvent e l = 0 := by
  induction l with
  | nil => rfl
  | cons x rest ih =>
    have hx : ¬(x = e) := fun hh => h (by rw [hh]; simp)
    simp only [countEvent, if_neg hx, ih fun hm => h (by simp [hm]), Nat.add_zero]

/-- C9: on every exit from a writer session — normal completion or an
exception raised after any prefix of the body — the trace contains exactly one
close of the output sink, and the writer is flushed; no exit path leaves the
sink open or closes it twice.  (The body, the section-writing operations, does
not itself close the sink.) -/
theorem C9_sink_release (body : List SinkEvent) (o : Outcome)
    (h : SinkEvent.closeOutfile ∉ body) :
    countEvent .closeOutfile (sessionTrace body o) = 1 ∧
    1 ≤ countEvent .flushWriter (sessionTrace body o) := by
  have hbody : SinkEvent.closeOutfile ∉ bodyTrace body o := by
    cases o with
    | normal => exact h
    | raised k => exact fun hm => h (List.take_subset k body hm)
  have hsplit : ∀ ev : SinkEvent, countEvent ev (sessionTrace body o) =
      countEvent ev enterEvents + countEvent ev (bodyTrace body o) +
        countEvent ev exitEvents := by
    intro ev
    rw [sessionTrace, countEvent_append, countEvent_append]
  constructor
  · rw [hsplit, countEvent_zero _ _ hbody]
    decide
  · rw [hsplit]
    have hexit : countEvent .flushWriter exitEvents = 1 := by decide
    omega

theorem C9_sink_release_witness :
    countEvent .closeOutfile
        (sessionTrace [.flushWriter, .flushWriter] (.raised 1)) = 1 ∧
    1 ≤ countEvent .flushWriter
        (sessionTrace [.flushWriter, .flushWriter] (.raised 1)) :=
  C9_sink_release [.flushWriter, .flushWriter] (.raised 1) (by decide)

end Mzid
